import Mathlib

/-!
Verification of the versioned encrypted file header (`crates/crypto/src/header/schema/file_001.rs`)
and the job-engine state (`core/src/job/mod.rs`) of the repository.

Byte strings are modelled as `List Nat`.  The cryptographic primitives
(`Encryptor`/`Decryptor`, `Key::derive`, `HashingAlgorithm::hash`) live outside
the provided sources, so they are modelled from the spec as an ideal
authenticated cipher: a ciphertext is an injective encoding of
(key, nonce, algorithm, aad, plaintext), and decryption succeeds exactly when
key, nonce, algorithm and aad all match, returning the embedded plaintext.
Randomness (`Nonce::generate`, `Salt::generate`) is passed in explicitly.
-/

namespace Spacedrive

/-- Byte strings (`Vec<u8>` and the fixed-width wrappers `Key`, `Nonce`, `Salt`,
`Aad`, `EncryptedKey`); bytes are modelled as naturals and the fixed widths are
elided. -/
abbrev Bytes := List Nat

/-- `Key`: a secret byte string (32 bytes in the implementation). -/
abbrev Key := Bytes

/-- `Nonce`: an algorithm-sized nonce. -/
abbrev Nonce := Bytes

/-- `Salt`: a 16-byte salt. -/
abbrev Salt := Bytes

/-- `Aad`: 32 bytes of additional authenticated data. -/
abbrev Aad := Bytes

/-- `EncryptedKey`: the AEAD wrapping of a master key (48 bytes in the
implementation; here the symbolic ciphertext bytes). -/
abbrev EncryptedKey := Bytes

/-- Length-prefixed encoding of one byte string, the building block of the
symbolic ciphertexts and of the binary serializer model. -/
def encList (l : List Nat) : List Nat := l.length :: l

/-- Decoder matching `encList`: reads a length, then that many entries,
returning the payload and the remaining input. -/
def decList : List Nat → Option (List Nat × List Nat)
  | [] => none
  | n :: rest => if n ≤ rest.length then some (rest.take n, rest.drop n) else none

/-- Modelled from the spec: the closed AEAD algorithm enum (`Algorithm` in
`crate::types`, not under the provided sources): "XChaCha20-Poly1305,
AES-256-GCM-SIV". -/
inductive Algorithm where
  | xChaCha20Poly1305
  | aes256GcmSiv
deriving DecidableEq, Repr

/-- Modelled from the spec: the password-hashing algorithm enum
(`HashingAlgorithm` in `crate::types`, not under the provided sources):
"Argon2id (params fixed)" / BLAKE3-Balloon, each with a parameter set.  The
underlying KDF rejects some parameter sets; `params = 0` models a rejected
set, so that the per-keyslot KDF failure the spec reports as `PasswordHash`
is representable. -/
inductive HashingAlgorithm where
  | argon2id (params : Nat)
  | blake3Balloon (params : Nat)
deriving DecidableEq, Repr

/-- Modelled from the spec: the typed metadata object kinds
(`HeaderObjectType`, not under the provided sources). -/
inductive HeaderObjectType where
  | metadata
  | previewMedia
deriving DecidableEq, Repr

/-- The crypto error enum (`sd_crypto::Error`, not under the provided sources);
the variants are the ones the error taxonomy of the spec lists. -/
inductive Error where
  | NoKeyslots
  | IncorrectPassword
  | TooManyKeyslots
  | TooManyObjects
  | Index
  | PasswordHash
  | AuthError
deriving DecidableEq, Repr

/-- Numeric tag of an `Algorithm` variant, used inside symbolic ciphertexts
and in the serializer model. -/
def Algorithm.tag : Algorithm → Nat
  | .xChaCha20Poly1305 => 0
  | .aes256GcmSiv => 1

/-- `FILE_KEY_CONTEXT`: the fixed ASCII domain-separation context for
master-key wrapping (`crate::primitives`, not under the provided sources);
a fixed byte string. -/
def FILE_KEY_CONTEXT : Bytes := [70, 73, 76, 69, 95, 75, 69, 89]

/-- Modelled from the spec: `Key::derive(input, salt, context)` is a KDF
producing a key; modelled as an injective encoding of its inputs, so distinct
inputs give distinct derived keys (collision-freeness of the ideal KDF). -/
def Key.derive (input : Key) (salt : Salt) (context : Bytes) : Key :=
  encList input ++ encList salt ++ encList context

/-- Modelled from the spec: `HashingAlgorithm::hash(password, salt, secret)`
derives a key from a password; it fails (surfaced by the header code as
`PasswordHash`) on a rejected parameter set, modelled as `params = 0`. -/
def HashingAlgorithm.hash (alg : HashingAlgorithm) (password : Bytes) (salt : Salt)
    (secret : Option Bytes) : Except Unit Key :=
  match alg with
  | .argon2id p =>
      if p = 0 then .error () else
        .ok (0 :: p :: (encList password ++ encList salt ++ encList (secret.getD [])))
  | .blake3Balloon p =>
      if p = 0 then .error () else
        .ok (1 :: p :: (encList password ++ encList salt ++ encList (secret.getD [])))

/-- Modelled from the spec: `Encryptor::encrypt_bytes(key, nonce, algorithm,
plaintext, aad) -> ciphertext||tag`; the ciphertext of the ideal cipher is an
injective encoding of all five inputs. -/
def encryptBytes (key : Key) (nonce : Nonce) (algorithm : Algorithm)
    (plaintext : Bytes) (aad : Bytes) : Bytes :=
  encList key ++ encList nonce ++ [algorithm.tag] ++ encList aad ++ encList plaintext

/-- Modelled from the spec: `Decryptor::decrypt_bytes(key, nonce, algorithm,
ciphertext, aad) -> plaintext | AuthError`; the ideal cipher authenticates
key, nonce, algorithm and aad and returns the embedded plaintext exactly when
all of them match. -/
def decryptBytes (key : Key) (nonce : Nonce) (algorithm : Algorithm)
    (ciphertext : Bytes) (aad : Bytes) : Except Error Bytes :=
  match decList ciphertext with
  | none => .error .AuthError
  | some (k, rest) =>
    match decList rest with
    | none => .error .AuthError
    | some (n, rest) =>
      match rest with
      | [] => .error .AuthError
      | t :: rest =>
        match decList rest with
        | none => .error .AuthError
        | some (a, rest) =>
          match decList rest with
          | some (pt, []) =>
              if k = key ∧ n = nonce ∧ t = algorithm.tag ∧ a = aad then .ok pt
              else .error .AuthError
          | _ => .error .AuthError

/-- `Keyslot001` (`file_001.rs`, lines 22-29). -/
structure Keyslot001 where
  hashing_algorithm : HashingAlgorithm
  salt : Salt
  content_salt : Salt
  master_key : EncryptedKey
  nonce : Nonce
deriving DecidableEq, Repr

/-- `FileHeaderObject001` (`file_001.rs`, lines 31-36). -/
structure FileHeaderObject001 where
  object_type : HeaderObjectType
  nonce : Nonce
  data : Bytes
deriving DecidableEq, Repr

/-- `FileHeader001` (`file_001.rs`, lines 12-19). -/
structure FileHeader001 where
  aad : Aad
  algorithm : Algorithm
  nonce : Nonce
  keyslots : List Keyslot001
  objects : List FileHeaderObject001
deriving DecidableEq, Repr

/-- `KEYSLOT_LIMIT` (`file_001.rs`, line 9). -/
def KEYSLOT_LIMIT : Nat := 2

/-- `OBJECT_LIMIT` (`file_001.rs`, line 10). -/
def OBJECT_LIMIT : Nat := 2

/-- `Keyslot001::new` (`file_001.rs`, lines 40-69): wraps `master_key` under
`Key::derive(hashed_key, salt, FILE_KEY_CONTEXT)` with empty aad.  The freshly
generated `nonce` and `salt` are explicit arguments here; the
`EncryptedKey::try_from` width check is elided in the symbolic byte model. -/
def Keyslot001.new (algorithm : Algorithm) (hashing_algorithm : HashingAlgorithm)
    (content_salt : Salt) (hashed_key : Key) (master_key : Key)
    (nonce : Nonce) (salt : Salt) : Keyslot001 :=
  { hashing_algorithm := hashing_algorithm
    salt := salt
    content_salt := content_salt
    master_key :=
      encryptBytes (Key.derive hashed_key salt FILE_KEY_CONTEXT) nonce algorithm master_key []
    nonce := nonce }

/-- `Keyslot001::decrypt` (`file_001.rs`, lines 72-83): unwraps the stored
master key under `Key::derive(key, self.salt, FILE_KEY_CONTEXT)`; the
`Key::try_from` width check is elided in the symbolic byte model. -/
def Keyslot001.decrypt (v : Keyslot001) (algorithm : Algorithm) (key : Key) :
    Except Error Key :=
  decryptBytes (Key.derive key v.salt FILE_KEY_CONTEXT) v.nonce algorithm v.master_key []

/-- `FileHeaderObject001::new` (`file_001.rs`, lines 104-123); fresh `nonce`
is an explicit argument. -/
def FileHeaderObject001.new (object_type : HeaderObjectType) (algorithm : Algorithm)
    (master_key : Key) (aad : Aad) (data : Bytes) (nonce : Nonce) : FileHeaderObject001 :=
  { object_type := object_type
    nonce := nonce
    data := encryptBytes master_key nonce algorithm data aad }

/-- `FileHeaderObject001::decrypt` (`file_001.rs`, lines 125-135). -/
def FileHeaderObject001.decrypt (o : FileHeaderObject001) (algorithm : Algorithm)
    (aad : Aad) (master_key : Key) : Except Error Bytes :=
  decryptBytes master_key o.nonce algorithm o.data aad

/-- `FileHeader001::decrypt_object` (`file_001.rs`, lines 144-152): the source
guard is `index >= self.objects.len() || self.objects.is_empty()`. -/
def FileHeader001.decryptObject (h : FileHeader001) (index : Nat) (master_key : Key) :
    Except Error Bytes :=
  if hc : index ≥ h.objects.length ∨ h.objects.isEmpty = true then .error .Index
  else
    (h.objects.get ⟨index, Nat.lt_of_not_le fun hle => hc (Or.inl hle)⟩).decrypt
      h.algorithm h.aad master_key

/-- `FileHeader001::add_keyslot` (`file_001.rs`, lines 154-176), with the
`&mut self` mutation made explicit: the returned header is the post-state,
unchanged when the keyslot limit is hit. -/
def FileHeader001.addKeyslot (h : FileHeader001) (hashing_algorithm : HashingAlgorithm)
    (content_salt : Salt) (hashed_key : Key) (master_key : Key)
    (nonce : Nonce) (salt : Salt) : Except Error Unit × FileHeader001 :=
  if h.keyslots.length + 1 > KEYSLOT_LIMIT then (.error .TooManyKeyslots, h)
  else
    (.ok (),
     { h with
        keyslots := h.keyslots ++
          [Keyslot001.new h.algorithm hashing_algorithm content_salt hashed_key master_key
            nonce salt] })

/-- `FileHeader001::add_object` (`file_001.rs`, lines 178-193), with the
`&mut self` mutation made explicit. -/
def FileHeader001.addObject (h : FileHeader001) (object_type : HeaderObjectType)
    (master_key : Key) (data : Bytes) (nonce : Nonce) :
    Except Error Unit × FileHeader001 :=
  if h.objects.length + 1 > OBJECT_LIMIT then (.error .TooManyObjects, h)
  else
    (.ok (),
     { h with
        objects := h.objects ++
          [FileHeaderObject001.new object_type h.algorithm master_key h.aad data nonce] })

/-- Inner loop of `FileHeader001::decrypt_master_key` (`file_001.rs`,
lines 202-206): trial-decrypt each keyslot in stored order with one candidate
hashed key. -/
def trialSlots (algorithm : Algorithm) (hashed_key : Key) :
    List Keyslot001 → Option Key
  | [] => none
  | v :: rest =>
    match v.decrypt algorithm hashed_key with
    | .ok key => some key
    | .error _ => trialSlots algorithm hashed_key rest

/-- Outer loop of `FileHeader001::decrypt_master_key` (`file_001.rs`,
lines 201-209): iterate the candidate hashed keys in the order given. -/
def trialKeys (algorithm : Algorithm) (slots : List Keyslot001) :
    List Key → Except Error Key
  | [] => .error .IncorrectPassword
  | hashed_key :: keys =>
    match trialSlots algorithm hashed_key slots with
    | some key => .ok key
    | none => trialKeys algorithm slots keys

/-- `FileHeader001::decrypt_master_key` (`file_001.rs`, lines 196-210). -/
def FileHeader001.decryptMasterKey (h : FileHeader001) (keys : List Key) :
    Except Error Key :=
  if h.keyslots.isEmpty then .error .NoKeyslots
  else trialKeys h.algorithm h.keyslots keys

/-- Loop body of `FileHeader001::decrypt_master_key_with_password`
(`file_001.rs`, lines 218-227): per keyslot, hash the password with the
hashing algorithm of the keyslot itself and content salt; a KDF failure aborts via
`map_err(|_| Error::PasswordHash)?`, an AEAD failure falls through to the next
keyslot. -/
def trialSlotsWithPassword (algorithm : Algorithm) (password : Bytes) :
    List Keyslot001 → Except Error Key
  | [] => .error .IncorrectPassword
  | v :: rest =>
    match v.hashing_algorithm.hash password v.content_salt none with
    | .error _ => .error .PasswordHash
    | .ok key =>
      match v.decrypt algorithm key with
      | .ok key => .ok key
      | .error _ => trialSlotsWithPassword algorithm password rest

/-- `FileHeader001::decrypt_master_key_with_password` (`file_001.rs`,
lines 213-230). -/
def FileHeader001.decryptMasterKeyWithPassword (h : FileHeader001) (password : Bytes) :
    Except Error Key :=
  if h.keyslots.isEmpty then .error .NoKeyslots
  else trialSlotsWithPassword h.algorithm password h.keyslots

/-! ### The binary serializer model

`FileHeader001::serialize` (`file_001.rs`, lines 140-142) is
`bincode::encode_to_vec(self, bincode::config::standard())`; the `bincode`
codec and the matching `deserialize` live outside the provided sources.
Modelled from the spec: "deterministic binary encoding", fields in declaration
order, enums as a variant tag, "`Vec`s are prefixed by an unsigned length";
`deserialize(bytes)` is its inverse. -/

/-- Encoder for a list of variable-size elements: element encodings
concatenated (the element count is written separately by `encListOf`). -/
def encMany (f : α → List Nat) : List α → List Nat
  | [] => []
  | x :: xs => f x ++ encMany f xs

/-- `Vec` encoding: unsigned length prefix, then the elements. -/
def encListOf (f : α → List Nat) (l : List α) : List Nat :=
  l.length :: encMany f l

/-- Decoder for exactly `n` elements, threading the remaining input. -/
def decMany (g : List Nat → Option (α × List Nat)) :
    Nat → List Nat → Option (List α × List Nat)
  | 0, b => some ([], b)
  | n + 1, b =>
    match g b with
    | none => none
    | some (x, b) =>
      match decMany g n b with
      | none => none
      | some (xs, b) => some (x :: xs, b)

/-- Decoder matching `encListOf`: reads the length prefix, then that many
elements. -/
def decListOf (g : List Nat → Option (α × List Nat)) :
    List Nat → Option (List α × List Nat)
  | [] => none
  | n :: b => decMany g n b

/-- Tagged encoding of a `HashingAlgorithm` (variant tag, then the params). -/
def encHashingAlgorithm : HashingAlgorithm → List Nat
  | .argon2id p => [0, p]
  | .blake3Balloon p => [1, p]

/-- Decoder matching `encHashingAlgorithm`. -/
def decHashingAlgorithm : List Nat → Option (HashingAlgorithm × List Nat)
  | 0 :: p :: rest => some (.argon2id p, rest)
  | 1 :: p :: rest => some (.blake3Balloon p, rest)
  | _ => none

/-- Decoder matching `Algorithm.tag`. -/
def decAlgorithm : List Nat → Option (Algorithm × List Nat)
  | 0 :: rest => some (.xChaCha20Poly1305, rest)
  | 1 :: rest => some (.aes256GcmSiv, rest)
  | _ => none

/-- Tagged encoding of a `HeaderObjectType`. -/
def HeaderObjectType.tag : HeaderObjectType → Nat
  | .metadata => 0
  | .previewMedia => 1

/-- Decoder matching `HeaderObjectType.tag`. -/
def decHeaderObjectType : List Nat → Option (HeaderObjectType × List Nat)
  | 0 :: rest => some (.metadata, rest)
  | 1 :: rest => some (.previewMedia, rest)
  | _ => none

/-- Encoding of one `Keyslot001`: its five fields in declaration order. -/
def encKeyslot (k : Keyslot001) : List Nat :=
  encHashingAlgorithm k.hashing_algorithm ++ encList k.salt ++ encList k.content_salt ++
    encList k.master_key ++ encList k.nonce

/-- Decoder matching `encKeyslot`. -/
def decKeyslot (b : List Nat) : Option (Keyslot001 × List Nat) :=
  match decHashingAlgorithm b with
  | none => none
  | some (ha, b) =>
    match decList b with
    | none => none
    | some (s, b) =>
      match decList b with
      | none => none
      | some (cs, b) =>
        match decList b with
        | none => none
        | some (mk, b) =>
          match decList b with
          | none => none
          | some (n, b) =>
            some ({ hashing_algorithm := ha, salt := s, content_salt := cs,
                    master_key := mk, nonce := n }, b)

/-- Encoding of one `FileHeaderObject001`: its three fields in declaration
order. -/
def encObject (o : FileHeaderObject001) : List Nat :=
  o.object_type.tag :: (encList o.nonce ++ encList o.data)

/-- Decoder matching `encObject`. -/
def decObject (b : List Nat) : Option (FileHeaderObject001 × List Nat) :=
  match decHeaderObjectType b with
  | none => none
  | some (t, b) =>
    match decList b with
    | none => none
    | some (n, b) =>
      match decList b with
      | none => none
      | some (d, b) => some ({ object_type := t, nonce := n, data := d }, b)

/-- `FileHeader001::serialize` (`file_001.rs`, lines 140-142): the
five fields in declaration order, `Vec`s length-prefixed. -/
def FileHeader001.serialize (h : FileHeader001) : List Nat :=
  encList h.aad ++ (h.algorithm.tag :: encList h.nonce) ++
    encListOf encKeyslot h.keyslots ++ encListOf encObject h.objects

/-- Decoder for a serialized `FileHeader001`, threading the remaining input. -/
def decHeader (b : List Nat) : Option (FileHeader001 × List Nat) :=
  match decList b with
  | none => none
  | some (aad, b) =>
    match decAlgorithm b with
    | none => none
    | some (alg, b) =>
      match decList b with
      | none => none
      | some (n, b) =>
        match decListOf decKeyslot b with
        | none => none
        | some (ks, b) =>
          match decListOf decObject b with
          | none => none
          | some (os, b) =>
            some ({ aad := aad, algorithm := alg, nonce := n,
                    keyslots := ks, objects := os }, b)

/-- Modelled from the spec: `deserialize(bytes)` is the inverse of
`serialize`; it fails unless the bytes are exactly one encoded header. -/
def deserialize (b : List Nat) : Option FileHeader001 :=
  match decHeader b with
  | some (h, []) => some h
  | _ => none

/-! ### JobState (`core/src/job/mod.rs`, lines 145-151)

`JobState<Job>` is generic over the associated job types `Init`, `Data`,
`Step`; `steps: VecDeque<Job::Step>` is modelled as a list consumed at the
front, and `step_number: usize` as a natural (its platform-dependent width is
modelled separately below).  The binary serializer of the engine (`rmp_serde`, not
under the provided sources) is modelled from the spec as the field encodings
in declaration order, with each associated type supplied with its own
codec. -/

/-- `JobState` (`core/src/job/mod.rs`, lines 145-151). -/
structure JobState (Init Data Step : Type) where
  init : Init
  data : Option Data
  steps : List Step
  step_number : Nat
deriving DecidableEq, Repr

/-- `Option` encoding: a presence tag, then the payload when present. -/
def encOption (f : α → List Nat) : Option α → List Nat
  | none => [0]
  | some a => 1 :: f a

/-- Decoder matching `encOption`. -/
def decOption (g : List Nat → Option (α × List Nat)) :
    List Nat → Option (Option α × List Nat)
  | 0 :: rest => some (none, rest)
  | 1 :: rest =>
    match g rest with
    | none => none
    | some (a, rest) => some (some a, rest)
  | _ => none

/-- Modelled from the spec: the binary serialization of a
`JobState` — the four fields in declaration order, given codecs for the
associated job types. -/
def encJobState (fi : I → List Nat) (fd : D → List Nat) (fs : S → List Nat)
    (s : JobState I D S) : List Nat :=
  fi s.init ++ encOption fd s.data ++ encListOf fs s.steps ++ [s.step_number]

/-- Decoder matching `encJobState`, threading the remaining input. -/
def decJobState (gi : List Nat → Option (I × List Nat))
    (gd : List Nat → Option (D × List Nat)) (gs : List Nat → Option (S × List Nat))
    (b : List Nat) : Option (JobState I D S × List Nat) :=
  match gi b with
  | none => none
  | some (i, b) =>
    match decOption gd b with
    | none => none
    | some (d, b) =>
      match decListOf gs b with
      | none => none
      | some (st, b) =>
        match b with
        | [] => none
        | n :: b => some ({ init := i, data := d, steps := st, step_number := n }, b)

/-- Modelled from the spec: deserialization of a `JobState` (as performed by
`JobRestorer::restore` via `rmp_serde::from_slice`, `core/src/job/mod.rs`,
lines 124-142); fails unless the bytes are exactly one encoded state. -/
def deserializeJobState (gi : List Nat → Option (I × List Nat))
    (gd : List Nat → Option (D × List Nat)) (gs : List Nat → Option (S × List Nat))
    (b : List Nat) : Option (JobState I D S) :=
  match decJobState gi gd gs b with
  | some (s, []) => some s
  | _ => none

/-- The declared width in bits of `JobState::step_number`
(`core/src/job/mod.rs`, line 150): the field is `usize`, so its width is the
platform pointer width. -/
def stepNumberBits (ptrBits : Nat) : Nat := ptrBits

/-- The number of values a `step_number` can take on a platform with the
given pointer width. -/
def stepNumberRange (ptrBits : Nat) : Nat := 2 ^ stepNumberBits ptrBits

/-- The number of values a `u64` can take, on every platform. -/
def u64Range : Nat := 2 ^ 64

/-! ### Auxiliary predicates and concrete fixtures used by the theorems -/

/-- A keyslot that is a negative trial for the given password: the KDF
succeeds on it, and the AEAD unwrap then fails. -/
def slotNegative (algorithm : Algorithm) (password : Bytes) (v : Keyslot001) : Prop :=
  ∃ k, v.hashing_algorithm.hash password v.content_salt none = .ok k ∧
    ∃ e, v.decrypt algorithm k = .error e

/-- A fixed keyslot value (fields arbitrary), used to fill headers in the
concrete instances below. -/
def sampleSlot : Keyslot001 :=
  { hashing_algorithm := .argon2id 1, salt := [], content_salt := [],
    master_key := [], nonce := [] }

/-- A fixed header object value, used to fill headers in the concrete
instances below. -/
def sampleObject : FileHeaderObject001 :=
  { object_type := .metadata, nonce := [], data := [] }

/-- A header already holding two keyslots and two objects. -/
def sampleHeaderFull : FileHeader001 :=
  { aad := [], algorithm := .xChaCha20Poly1305, nonce := [],
    keyslots := [sampleSlot, sampleSlot], objects := [sampleObject, sampleObject] }

/-- A header holding a single object. -/
def sampleHeaderOne : FileHeader001 :=
  { aad := [], algorithm := .xChaCha20Poly1305, nonce := [],
    keyslots := [], objects := [sampleObject] }

/-- A header with no keyslots. -/
def sampleHeaderEmpty : FileHeader001 :=
  { aad := [], algorithm := .xChaCha20Poly1305, nonce := [],
    keyslots := [], objects := [] }

/-- A fixed password. -/
def samplePassword : Bytes := [7]

/-- The key `(HashingAlgorithm.argon2id 1).hash samplePassword [] none`
produces. -/
def sampleHashedKey : Key := [0, 1, 1, 7, 0, 0]

/-- A keyslot wrapping the master key `[9]` under `sampleHashedKey`, so that
hashing `samplePassword` with its own hashing algorithm and content salt
unwraps it. -/
def sampleGoodSlot : Keyslot001 :=
  Keyslot001.new .xChaCha20Poly1305 (.argon2id 1) [] sampleHashedKey [9] [] []

/-- A header whose single keyslot opens under `samplePassword`. -/
def sampleHeaderPw : FileHeader001 :=
  { aad := [], algorithm := .xChaCha20Poly1305, nonce := [],
    keyslots := [sampleGoodSlot], objects := [] }

/-- A keyslot whose hashing algorithm carries a rejected KDF parameter set,
so hashing any password with it fails. -/
def sampleFailSlot : Keyslot001 :=
  { hashing_algorithm := .argon2id 0, salt := [], content_salt := [],
    master_key := [], nonce := [] }

/-- A header whose first keyslot has a failing KDF and whose second keyslot
would open under `samplePassword`. -/
def sampleHeaderKdf : FileHeader001 :=
  { aad := [], algorithm := .xChaCha20Poly1305, nonce := [],
    keyslots := [sampleFailSlot, sampleGoodSlot], objects := [] }

/-- A one-entry codec for naturals, instantiating the generic job-state
serializer. -/
def encNatC (n : Nat) : List Nat := [n]

/-- Decoder matching `encNatC`. -/
def decNatC : List Nat → Option (Nat × List Nat)
  | [] => none
  | n :: r => some (n, r)

/-! ### Codec and ideal-cipher laws -/

theorem decList_encList (l rest : List Nat) : decList (encList l ++ rest) = some (l, rest) := by
  simp only [encList, List.cons_append, decList, List.length_append]
  rw [if_pos (Nat.le_add_right _ _), List.take_left, List.drop_left]

theorem decList_encList_nil (l : List Nat) : decList (encList l) = some (l, []) := by
  have := decList_encList l []
  rwa [List.append_nil] at this

theorem decryptBytes_encryptBytes (key : Key) (nonce : Nonce) (algorithm : Algorithm)
    (plaintext aad : Bytes) :
    decryptBytes key nonce algorithm (encryptBytes key nonce algorithm plaintext aad) aad =
      .ok plaintext := by
  simp [encryptBytes, decryptBytes, List.append_assoc, List.cons_append,
    decList_encList, decList_encList_nil]

theorem decryptBytes_encryptBytes_wrong_key (key key2 : Key) (nonce : Nonce)
    (algorithm : Algorithm) (plaintext aad : Bytes) (hne : key ≠ key2) :
    decryptBytes key2 nonce algorithm (encryptBytes key nonce algorithm plaintext aad) aad =
      .error .AuthError := by
  simp [encryptBytes, decryptBytes, List.append_assoc, List.cons_append,
    decList_encList, decList_encList_nil, hne]

theorem decryptBytes_error_auth (key : Key) (nonce : Nonce) (algorithm : Algorithm)
    (ciphertext aad : Bytes) (e : Error)
    (hE : decryptBytes key nonce algorithm ciphertext aad = .error e) : e = .AuthError := by
  unfold decryptBytes at hE
  repeat' split at hE
  all_goals simp_all

theorem derive_inj (i i' : Key) (s s' : Salt) (c c' : Bytes)
    (h : Key.derive i s c = Key.derive i' s' c') : i = i' := by
  have h1 := decList_encList i (encList s ++ encList c)
  have h2 := decList_encList i' (encList s' ++ encList c')
  unfold Key.derive at h
  simp only [List.append_assoc] at h
  rw [h] at h1
  rw [h2] at h1
  exact (congrArg Prod.fst (Option.some.inj h1)).symm

theorem decMany_encMany (g : List Nat → Option (α × List Nat)) (f : α → List Nat)
    (hg : ∀ x r, g (f x ++ r) = some (x, r)) (l : List α) (rest : List Nat) :
    decMany g l.length (encMany f l ++ rest) = some (l, rest) := by
  induction l generalizing rest with
  | nil => rfl
  | cons x xs ih =>
    simp only [encMany, List.length_cons, decMany, List.append_assoc, hg, ih]

theorem decListOf_encListOf (g : List Nat → Option (α × List Nat)) (f : α → List Nat)
    (hg : ∀ x r, g (f x ++ r) = some (x, r)) (l : List α) (rest : List Nat) :
    decListOf g (encListOf f l ++ rest) = some (l, rest) := by
  simp only [encListOf, List.cons_append, decListOf]
  exact decMany_encMany g f hg l rest

theorem decHashingAlgorithm_enc (a : HashingAlgorithm) (rest : List Nat) :
    decHashingAlgorithm (encHashingAlgorithm a ++ rest) = some (a, rest) := by
  cases a <;> rfl

theorem decAlgorithm_tag (a : Algorithm) (rest : List Nat) :
    decAlgorithm (a.tag :: rest) = some (a, rest) := by
  cases a <;> rfl

theorem decHeaderObjectType_tag (t : HeaderObjectType) (rest : List Nat) :
    decHeaderObjectType (t.tag :: rest) = some (t, rest) := by
  cases t <;> rfl

theorem decKeyslot_enc (k : Keyslot001) (rest : List Nat) :
    decKeyslot (encKeyslot k ++ rest) = some (k, rest) := by
  obtain ⟨ha, s, cs, mk, n⟩ := k
  simp only [encKeyslot, List.append_assoc, decKeyslot, decHashingAlgorithm_enc,
    decList_encList]

theorem decObject_enc (o : FileHeaderObject001) (rest : List Nat) :
    decObject (encObject o ++ rest) = some (o, rest) := by
  obtain ⟨t, n, d⟩ := o
  simp only [encObject, List.append_assoc, List.cons_append, decObject,
    decHeaderObjectType_tag, decList_encList]

theorem decHeader_serialize (h : FileHeader001) (rest : List Nat) :
    decHeader (h.serialize ++ rest) = some (h, rest) := by
  obtain ⟨aad, alg, n, ks, os⟩ := h
  simp only [FileHeader001.serialize, List.append_assoc, List.cons_append, decHeader,
    decList_encList, decAlgorithm_tag,
    decListOf_encListOf decKeyslot encKeyslot decKeyslot_enc,
    decListOf_encListOf decObject encObject decObject_enc]

theorem deserialize_serialize (h : FileHeader001) : deserialize h.serialize = some h := by
  have hd := decHeader_serialize h []
  rw [List.append_nil] at hd
  simp [deserialize, hd]

theorem decOption_encOption (g : List Nat → Option (α × List Nat)) (f : α → List Nat)
    (hg : ∀ x r, g (f x ++ r) = some (x, r)) (o : Option α) (rest : List Nat) :
    decOption g (encOption f o ++ rest) = some (o, rest) := by
  cases o <;> simp [encOption, decOption, hg]

/-! ### Loop characterizations -/

theorem trialSlots_eq_findSome (algorithm : Algorithm) (hashed_key : Key)
    (slots : List Keyslot001) :
    trialSlots algorithm hashed_key slots =
      slots.findSome? fun v => (v.decrypt algorithm hashed_key).toOption := by
  induction slots with
  | nil => rfl
  | cons v rest ih =>
    rw [trialSlots, List.findSome?_cons]
    cases hd : v.decrypt algorithm hashed_key <;> simp [Except.toOption, hd, ih]

theorem trialKeys_eq_findSome (algorithm : Algorithm) (slots : List Keyslot001)
    (keys : List Key) :
    trialKeys algorithm slots keys =
      match keys.findSome? (fun hk =>
          slots.findSome? fun v => (v.decrypt algorithm hk).toOption) with
      | some key => .ok key
      | none => .error .IncorrectPassword := by
  induction keys with
  | nil => rfl
  | cons hk keys ih =>
    rw [trialKeys, trialSlots_eq_findSome, List.findSome?_cons]
    cases h1 : slots.findSome? fun v => (v.decrypt algorithm hk).toOption <;> simp [h1, ih]

theorem trialSlotsWithPassword_append_neg (algorithm : Algorithm) (password : Bytes)
    (pre l : List Keyslot001) (hpre : ∀ u ∈ pre, slotNegative algorithm password u) :
    trialSlotsWithPassword algorithm password (pre ++ l) =
      trialSlotsWithPassword algorithm password l := by
  induction pre with
  | nil => rfl
  | cons u pre ih =>
    obtain ⟨k, hk, e, hd⟩ := hpre u (List.mem_cons_self u pre)
    simp only [List.cons_append, trialSlotsWithPassword, hk, hd]
    exact ih fun w hw => hpre w (List.mem_cons_of_mem u hw)

theorem trialSlotsWithPassword_all_neg (algorithm : Algorithm) (password : Bytes)
    (l : List Keyslot001) (hl : ∀ u ∈ l, slotNegative algorithm password u) :
    trialSlotsWithPassword algorithm password l = .error .IncorrectPassword := by
  have := trialSlotsWithPassword_append_neg algorithm password l [] hl
  rwa [List.append_nil] at this

/-! ### The claims -/

/-- Claim C1: `decrypt_master_key` returns `NoKeyslots` on a header with no
keyslots; otherwise it trial-decrypts, candidate-major and keyslot-minor in
stored order, returning the first successfully unwrapped master key, and
`IncorrectPassword` when every combination fails. -/
theorem decryptMasterKey_spec (h : FileHeader001) (keys : List Key) :
    h.decryptMasterKey keys =
      if h.keyslots = [] then .error .NoKeyslots
      else
        match keys.findSome? (fun hk =>
            h.keyslots.findSome? fun v => (v.decrypt h.algorithm hk).toOption) with
        | some key => .ok key
        | none => .error .IncorrectPassword := by
  rw [FileHeader001.decryptMasterKey]
  by_cases he : h.keyslots = []
  · simp [he]
  · rw [if_neg (by simpa [List.isEmpty_iff] using he), if_neg he]
    exact trialKeys_eq_findSome h.algorithm h.keyslots keys

/-- Claim C2: a keyslot built by `Keyslot001::new` with hashed key `H` and
master key `K` decrypts under the same algorithm and `H` to `Ok(K)`, and
decrypting it with any hashed key different from `H` yields `AuthError`. -/
theorem keyslot_roundtrip (algorithm : Algorithm) (hashing_algorithm : HashingAlgorithm)
    (content_salt : Salt) (H K : Key) (nonce : Nonce) (salt : Salt)
    (H' : Key) (hne : H' ≠ H) :
    (Keyslot001.new algorithm hashing_algorithm content_salt H K nonce salt).decrypt
        algorithm H = .ok K ∧
    (Keyslot001.new algorithm hashing_algorithm content_salt H K nonce salt).decrypt
        algorithm H' = .error .AuthError := by
  constructor
  · rw [Keyslot001.decrypt, Keyslot001.new]
    exact decryptBytes_encryptBytes _ _ _ _ _
  · rw [Keyslot001.decrypt, Keyslot001.new]
    exact decryptBytes_encryptBytes_wrong_key _ _ _ _ _ _
      fun hH => hne (derive_inj _ _ _ _ _ _ hH.symm)

/-- Witness for claim C2 at a concrete keyslot. -/
theorem keyslot_roundtrip_witness :
    (Keyslot001.new .xChaCha20Poly1305 (.argon2id 1) [] [1] [2] [] []).decrypt
        .xChaCha20Poly1305 [1] = .ok [2] ∧
    (Keyslot001.new .xChaCha20Poly1305 (.argon2id 1) [] [1] [2] [] []).decrypt
        .xChaCha20Poly1305 [0] = .error .AuthError :=
  keyslot_roundtrip .xChaCha20Poly1305 (.argon2id 1) [] [1] [2] [] [] [0] (by decide)

/-- Claim C3: `add_keyslot` on a header already holding 2 keyslots returns
`TooManyKeyslots`, `add_object` on a header already holding 2 objects returns
`TooManyObjects`, and in both error cases the header state is unchanged. -/
theorem capacity_bounds (h : FileHeader001) (hashing_algorithm : HashingAlgorithm)
    (content_salt : Salt) (hashed_key master_key : Key) (nonce : Nonce) (salt : Salt)
    (object_type : HeaderObjectType) (object_key : Key) (data : Bytes) (ononce : Nonce) :
    (h.keyslots.length = 2 →
      h.addKeyslot hashing_algorithm content_salt hashed_key master_key nonce salt =
        (.error .TooManyKeyslots, h)) ∧
    (h.objects.length = 2 →
      h.addObject object_type object_key data ononce = (.error .TooManyObjects, h)) := by
  constructor
  · intro hks
    rw [FileHeader001.addKeyslot, if_pos (by rw [hks]; decide)]
  · intro hos
    rw [FileHeader001.addObject, if_pos (by rw [hos]; decide)]

/-- Witness for claim C3 at a header holding 2 keyslots and 2 objects. -/
theorem capacity_bounds_witness :
    sampleHeaderFull.addKeyslot (.argon2id 1) [] [] [] [] [] =
      (.error .TooManyKeyslots, sampleHeaderFull) ∧
    sampleHeaderFull.addObject .metadata [] [] [] =
      (.error .TooManyObjects, sampleHeaderFull) :=
  ⟨(capacity_bounds sampleHeaderFull (.argon2id 1) [] [] [] [] [] .metadata [] [] []).1
      rfl,
   (capacity_bounds sampleHeaderFull (.argon2id 1) [] [] [] [] [] .metadata [] [] []).2
      rfl⟩

/-- Claim C4: `decrypt_master_key_with_password` hashes the password with each
keyslot hashing algorithm and content salt in stored order; after any run of
negative trials, a KDF failure is reported as `PasswordHash`, a successful
unwrap is returned, and if every keyslot is a negative trial the result is
`IncorrectPassword`. -/
theorem decryptMasterKeyWithPassword_spec (h : FileHeader001) (password : Bytes) :
    (∀ pre v post, h.keyslots = pre ++ v :: post →
      (∀ u ∈ pre, slotNegative h.algorithm password u) →
      (∀ e, v.hashing_algorithm.hash password v.content_salt none = .error e →
        h.decryptMasterKeyWithPassword password = .error .PasswordHash) ∧
      (∀ k key, v.hashing_algorithm.hash password v.content_salt none = .ok k →
        v.decrypt h.algorithm k = .ok key →
        h.decryptMasterKeyWithPassword password = .ok key)) ∧
    (h.keyslots ≠ [] → (∀ u ∈ h.keyslots, slotNegative h.algorithm password u) →
      h.decryptMasterKeyWithPassword password = .error .IncorrectPassword) := by
  constructor
  · intro pre v post hsplit hpre
    have hrw : h.decryptMasterKeyWithPassword password =
        trialSlotsWithPassword h.algorithm password (v :: post) := by
      rw [FileHeader001.decryptMasterKeyWithPassword,
        if_neg (by simp [hsplit, List.isEmpty_iff]), hsplit,
        trialSlotsWithPassword_append_neg h.algorithm password pre (v :: post) hpre]
    constructor
    · intro e hfail
      rw [hrw, trialSlotsWithPassword, hfail]
    · intro k key hk hd
      rw [hrw]
      simp only [trialSlotsWithPassword, hk, hd]
  · intro hne hall
    rw [FileHeader001.decryptMasterKeyWithPassword,
      if_neg (by simpa [List.isEmpty_iff] using hne)]
    exact trialSlotsWithPassword_all_neg h.algorithm password h.keyslots hall

/-- Witness for claim C4: a concrete header whose single keyslot opens under
the password. -/
theorem decryptMasterKeyWithPassword_spec_witness :
    sampleHeaderPw.decryptMasterKeyWithPassword samplePassword = .ok [9] :=
  (((decryptMasterKeyWithPassword_spec sampleHeaderPw samplePassword).1
      [] sampleGoodSlot [] rfl (by simp)).2) sampleHashedKey [9] rfl rfl

/-- Claim C5: serialization of a v1 header is deterministic, deserialization
inverts it field-wise, and two headers serialize to equal bytes iff they are
field-wise equal. -/
theorem serialize_roundtrip (h : FileHeader001) :
    deserialize h.serialize = some h ∧
    ∀ h2 : FileHeader001, h.serialize = h2.serialize ↔ h = h2 := by
  refine ⟨deserialize_serialize h, fun h2 => ⟨fun he => ?_, fun he => by rw [he]⟩⟩
  have h1 := deserialize_serialize h
  rw [he, deserialize_serialize h2] at h1
  exact (Option.some.inj h1).symm

/-- Claim C6: a `JobState` value serialized under the engine binary
serializer deserializes back to an equal state, given round-tripping codecs
for the associated job types. -/
theorem jobState_roundtrip (fi : I → List Nat) (gi : List Nat → Option (I × List Nat))
    (fd : D → List Nat) (gd : List Nat → Option (D × List Nat))
    (fs : S → List Nat) (gs : List Nat → Option (S × List Nat))
    (hi : ∀ x r, gi (fi x ++ r) = some (x, r))
    (hd : ∀ x r, gd (fd x ++ r) = some (x, r))
    (hs : ∀ x r, gs (fs x ++ r) = some (x, r))
    (s : JobState I D S) :
    deserializeJobState gi gd gs (encJobState fi fd fs s) = some s := by
  obtain ⟨i, d, st, n⟩ := s
  simp only [encJobState, List.append_assoc, deserializeJobState, decJobState, hi,
    decOption_encOption gd fd hd, decListOf_encListOf gs fs hs]

/-- Witness for claim C6 at one-entry natural codecs and a concrete state. -/
theorem jobState_roundtrip_witness :
    deserializeJobState decNatC decNatC decNatC
        (encJobState encNatC encNatC encNatC
          ({ init := 5, data := some 3, steps := [1, 2], step_number := 7 } :
            JobState Nat Nat Nat)) =
      some { init := 5, data := some 3, steps := [1, 2], step_number := 7 } :=
  jobState_roundtrip encNatC decNatC encNatC decNatC encNatC decNatC
    (fun _ _ => rfl) (fun _ _ => rfl) (fun _ _ => rfl) _

/-- Claim C7: `decrypt_object` returns the `Index` error exactly when the
index is out of bounds; in bounds it performs the AEAD decryption of the
object at that position under the header algorithm and AAD, which can only
fail with `AuthError`, never `Index`. -/
theorem decryptObject_spec (h : FileHeader001) (index : Nat) (master_key : Key) :
    (h.objects.length ≤ index → h.decryptObject index master_key = .error .Index) ∧
    ∀ hlt : index < h.objects.length,
      h.decryptObject index master_key =
        (h.objects.get ⟨index, hlt⟩).decrypt h.algorithm h.aad master_key ∧
      ∀ e, (h.objects.get ⟨index, hlt⟩).decrypt h.algorithm h.aad master_key =
          .error e → e = .AuthError := by
  constructor
  · intro hle
    rw [FileHeader001.decryptObject, dif_pos (Or.inl hle)]
  · intro hlt
    have hcond : ¬(index ≥ h.objects.length ∨ h.objects.isEmpty = true) := by
      rintro (hle | hemp)
      · omega
      · rw [List.isEmpty_iff] at hemp
        rw [hemp] at hlt
        simp at hlt
    refine ⟨by rw [FileHeader001.decryptObject, dif_neg hcond], fun e hE => ?_⟩
    exact decryptBytes_error_auth _ _ _ _ _ _ hE

/-- Witness for claim C7 at a concrete one-object header: index 1 is out of
bounds, index 0 decrypts (and the trial fails with `AuthError`, not
`Index`). -/
theorem decryptObject_spec_witness :
    sampleHeaderOne.decryptObject 1 [] = .error .Index ∧
    sampleHeaderOne.decryptObject 0 [] = .error .AuthError := by
  constructor
  · exact (decryptObject_spec sampleHeaderOne 1 []).1 (by decide)
  · have h0 := ((decryptObject_spec sampleHeaderOne 0 []).2 (by decide)).1
    rw [h0]
    rfl

/-- Claim C8 (counterexample): `step_number` is declared `usize`, not `u64`,
so on a 32-bit platform its value range differs from that of `u64`. -/
theorem stepNumber_not_u64 : stepNumberRange 32 ≠ u64Range := by decide

/-- Claim C8 (amended): `step_number` is a `usize`; its value range is that
of the platform pointer width, which coincides with the range of `u64` on
64-bit platforms but not on 32-bit platforms. -/
theorem stepNumber_usize_range :
    stepNumberRange 64 = u64Range ∧ stepNumberRange 32 = 2 ^ 32 ∧
      stepNumberRange 32 ≠ u64Range :=
  ⟨rfl, rfl, by decide⟩

/-- Claim C9: `decrypt_master_key_with_password` on a header with zero
keyslots returns the `NoKeyslots` error. -/
theorem decryptMasterKeyWithPassword_noKeyslots (h : FileHeader001) (password : Bytes)
    (he : h.keyslots = []) :
    h.decryptMasterKeyWithPassword password = .error .NoKeyslots := by
  rw [FileHeader001.decryptMasterKeyWithPassword, if_pos (by simp [he])]

/-- Witness for claim C9 at a concrete keyslot-free header. -/
theorem decryptMasterKeyWithPassword_noKeyslots_witness :
    sampleHeaderEmpty.decryptMasterKeyWithPassword [] = .error .NoKeyslots :=
  decryptMasterKeyWithPassword_noKeyslots sampleHeaderEmpty [] rfl

/-- Claim C10: in `decrypt_master_key_with_password`, a KDF failure on a
keyslot (reached after negative trials only) aborts the whole search with
`PasswordHash`, even when a keyslot stored after it would have decrypted
successfully with the given password. -/
theorem kdf_failure_aborts (h : FileHeader001) (password : Bytes)
    (pre post : List Keyslot001) (v w : Keyslot001)
    (hsplit : h.keyslots = pre ++ v :: post)
    (hpre : ∀ u ∈ pre, slotNegative h.algorithm password u)
    (e : Unit) (hfail : v.hashing_algorithm.hash password v.content_salt none = .error e)
    (hw : w ∈ post) (k key : Key)
    (hwk : w.hashing_algorithm.hash password w.content_salt none = .ok k)
    (hwd : w.decrypt h.algorithm k = .ok key) :
    h.decryptMasterKeyWithPassword password = .error .PasswordHash := by
  rw [FileHeader001.decryptMasterKeyWithPassword,
    if_neg (by simp [hsplit, List.isEmpty_iff]), hsplit,
    trialSlotsWithPassword_append_neg h.algorithm password pre (v :: post) hpre,
    trialSlotsWithPassword, hfail]

/-- Witness for claim C10: a concrete header whose first keyslot has a
failing KDF and whose second keyslot would open under the password; the
search still aborts with `PasswordHash`. -/
theorem kdf_failure_aborts_witness :
    sampleHeaderKdf.decryptMasterKeyWithPassword samplePassword =
      .error .PasswordHash :=
  kdf_failure_aborts sampleHeaderKdf samplePassword [] [sampleGoodSlot]
    sampleFailSlot sampleGoodSlot rfl (by simp) () rfl (by simp)
    sampleHashedKey [9] rfl rfl

end Spacedrive
